import Mathlib

/-
Verification of the `local_store` storage-source extension
(src/ext/storage_sources/local_store/local_store.c).

The C code is shallowly embedded: every definition below is translated
from a function or data structure of local_store.c (the comment above
each definition names its source).  Machine strings are modelled as Lean
`String` viewed through its `data` character list (the relevant code is
byte-wise `strcmp`/`strncmp`/`strstr` on NUL-terminated strings, which on
the character lists coincides with list equality / prefix / infix tests).
The on-disk state relevant to the claims is the set of existing marker
files, modelled as a `Finset String` of paths.  Locks always succeed and
allocation never fails in the model (the claims under study do not
concern lock or allocation failure); pthread and malloc error paths are
therefore not represented.
-/

/-! ## Error codes (numeric values of the POSIX codes used by the code) -/

def EINVAL : Int := 22

def ENOENT : Int := 2

def ENETUNREACH : Int := 101

/-- Stand-in errno for file-system call failures whose concrete errno the
model does not track (`pread`/`pwrite`/`open`/`close`/`rename` failure);
the code only propagates it, never inspects it. -/
def EIO_ERR : Int := 5

/-- The `object_name == NULL` branch of `local_flush_one` reports the
stale value of `errno`; the model uses a fixed nonzero stand-in.  No
claim exercises this branch (all paths built by the code contain a
slash). -/
def staleErrno : Int := 1

/-! ## Character-level string primitives (C `strncmp`-prefix, `strstr`) -/

/-- `strncmp(s, p, strlen(p)) == 0`: `p` is a character-prefix of `s`. -/
def strStartsWith (p s : String) : Bool :=
  p.data.isPrefixOf s.data

/-- Character count of a string (the code works on single-byte
characters, so `strlen` agrees with the character count). -/
def strLen (s : String) : Nat := s.data.length

/-- Drop the first `n` characters (pointer advance past a matched tag). -/
def strDrop (s : String) (n : Nat) : String := ⟨s.data.drop n⟩

/-- C `strstr(hay, needle) != NULL`: `needle` occurs contiguously in
`hay`. -/
def containsSubstr : List Char → List Char → Bool
  | hay, needle =>
    needle.isPrefixOf hay ||
      match hay with
      | [] => false
      | _ :: t => containsSubstr t needle

/-- C `strrchr(s, '/') != NULL`. -/
def strHasSlash (s : String) : Bool := s.data.contains '/'

theorem string_data_eq {s t : String} (h : s.data = t.data) : s = t := by
  cases s; cases t; exact congrArg String.mk h

@[simp] theorem strData_append (s t : String) : (s ++ t).data = s.data ++ t.data := by
  cases s; cases t; rfl

@[simp] theorem str_append_empty (s : String) : s ++ "" = s := by
  cases s; simp [String.append]

/-! ## Data model (structs of local_store.c) -/

/-- `LOCAL_LOCATION` (local_store.c:122-128).  The C field
`cluster_prefix` is named `cluster_pfx` here. -/
structure LocalLocation where
  cluster_pfx : String
  bucket : String
  kmsid : String
deriving DecidableEq, Repr

/-- `LOCAL_FLUSH_ITEM` (local_store.c:97-108). -/
structure FlushItem where
  src_path : String
  marker_path : String
  bucket : String
  kmsid : String
deriving DecidableEq, Repr

/-- The fields of `LOCAL_STORAGE` (local_store.c:60-92) that the flush
path reads or writes, together with the marker files currently existing
on disk.  (`delay_ms`/`force_delay` only produce a real-time sleep, which
has no observable effect in the model.) -/
structure LocalStorage where
  force_error : Nat
  object_flushes : Nat
  op_count : Nat
  flushq : List FlushItem
  disk : Finset String
deriving DecidableEq

/-- `MARKER_NEED_FLUSH` (local_store.c:206). -/
def MARKER_NEED_FLUSH : String := "FLUSH_"

/-- `MARKER_TEMPORARY` (local_store.c:207). -/
def MARKER_TEMPORARY : String := "TEMP_"

/-! ## Path construction and location open -/

/-- `local_location_path` (local_store.c:391-413):
`snprintf(p, len, "%s/%s%s%s", bucket, marker, cluster_prefix, name)`
with `marker = ""` when the argument is NULL. -/
def local_location_path (loc : LocalLocation) (name : String) (marker : Option String) :
    String :=
  loc.bucket ++ "/" ++ marker.getD "" ++ loc.cluster_pfx ++ name

/-- `local_config_dup` (local_store.c:213-241): copy the value, reject it
if `strstr(copy, disallowed) != NULL`, then append the suffix. -/
def local_config_dup (v : String) (suffix : String) (disallowed : Option String) :
    Except Int String :=
  match disallowed with
  | some d =>
    if containsSubstr v.data d.data then Except.error EINVAL
    else Except.ok (v ++ suffix)
  | none => Except.ok (v ++ suffix)

/-- `local_location_handle` (local_store.c:570-642), after the external
configuration parser has delivered the three string values (a missing
key is a parser-level error outside this model).  The bucket must be
non-empty; the cluster string passes through `local_config_dup` with
suffix `"_"` and disallowed string `"_/"`. -/
def local_location_handle (bucket cluster kmsid : String) : Except Int LocalLocation :=
  if bucket = "" then Except.error EINVAL
  else do
    let b ← local_config_dup bucket "" none
    let cp ← local_config_dup cluster "_" (some "_/")
    let k ← local_config_dup kmsid "" none
    Except.ok { cluster_pfx := cp, bucket := b, kmsid := k }

/-! ## Flush path -/

/-- The match test of the `TAILQ_FOREACH_SAFE` body of `local_flush`
(local_store.c:493-513): with a location and a name the whole path must
compare equal (`strcmp`), with a location only the match string must be
a prefix (`strncmp`), with no location everything matches. -/
def flushMatch (loc : Option LocalLocation) (name : Option String) (i : FlushItem) :
    Bool :=
  match loc with
  | none => true
  | some l =>
    let m := local_location_path l (match name with | none => "" | some n => n) none
    match name with
    | some _ => i.src_path == m
    | none => strStartsWith m i.src_path

/-- `local_flush_one` (local_store.c:536-564): find the object name after
the last slash, bump the global flush counter, run `local_delay`
(local_store.c:293-315, which reports `ENETUNREACH` when
`force_error != 0` and the updated counter is a multiple of it, in which
case `local_flush_one` returns early); only when everything succeeded is
the marker file unlinked. -/
def local_flush_one (s : LocalStorage) (flush : FlushItem) : Int × LocalStorage :=
  if strHasSlash flush.src_path = false then
    (staleErrno, s)
  else
    let s1 : LocalStorage := { s with object_flushes := s.object_flushes + 1 }
    if s1.force_error ≠ 0 ∧ s1.object_flushes % s1.force_error = 0 then
      (ENETUNREACH, s1)
    else if flush.marker_path ∈ s1.disk then
      (0, { s1 with disk := s1.disk.erase flush.marker_path })
    else
      (ENOENT, s1)

/-- The `TAILQ_FOREACH_SAFE` loop of `local_flush` (local_store.c:493-518):
every matched record is processed by `local_flush_one`, unconditionally
removed from the queue and freed; the first nonzero result is retained;
non-matching records stay on the queue.  Returns
(retained error, storage after processing, remaining queue). -/
def local_flush_loop (loc : Option LocalLocation) (name : Option String) :
    LocalStorage → List FlushItem → Int × LocalStorage × List FlushItem
  | s, [] => (0, s, [])
  | s, i :: rest =>
    if flushMatch loc name i then
      let one := local_flush_one s i
      let next := local_flush_loop loc name one.2 rest
      (if one.1 ≠ 0 then one.1 else next.1, next.2.1, next.2.2)
    else
      let next := local_flush_loop loc name s rest
      (next.1, next.2.1, i :: next.2.2)

/-- `local_flush` (local_store.c:453-530): a name without a location is
`EINVAL` before anything is touched; otherwise bump `op_count`, build the
match string and drain the queue. -/
def local_flush (s : LocalStorage) (loc : Option LocalLocation) (name : Option String) :
    Int × LocalStorage :=
  match loc, name with
  | none, some _ => (EINVAL, s)
  | _, _ =>
    let s0 : LocalStorage := { s with op_count := s.op_count + 1 }
    let out := local_flush_loop loc name s0 s0.flushq
    (out.1, { out.2.1 with flushq := out.2.2 })

/-! ## Helper lemmas about the flush loop -/

theorem local_location_path_empty_name (l : LocalLocation) :
    local_location_path l "" none = l.bucket ++ "/" ++ l.cluster_pfx := by
  apply string_data_eq
  simp [local_location_path]

theorem flush_loop_rem (loc : Option LocalLocation) (name : Option String)
    (q : List FlushItem) :
    ∀ s : LocalStorage,
      (local_flush_loop loc name s q).2.2 =
        q.filter (fun i => ! flushMatch loc name i) := by
  induction q with
  | nil => intro s; rfl
  | cons i rest ih =>
    intro s
    by_cases h : flushMatch loc name i = true
    · simp [local_flush_loop, h, List.filter_cons, ih]
    · simp only [Bool.not_eq_true] at h
      simp [local_flush_loop, h, List.filter_cons, ih]

/-! ## Claim C4 -/

/-- C4: drain selectivity of `local_flush`.  With a location and a name
exactly the records whose `src_path` equals the computed path are
removed; with only a location exactly the records whose `src_path`
starts with `bucket/cluster_prefix` are removed; with neither, every
record is removed. -/
theorem C4_drain_matching (s : LocalStorage) (l : LocalLocation) (n : String) :
    ((local_flush s (some l) (some n)).2.flushq =
        s.flushq.filter (fun i => !(i.src_path == local_location_path l n none))) ∧
    ((local_flush s (some l) none).2.flushq =
        s.flushq.filter
          (fun i => !(strStartsWith (l.bucket ++ "/" ++ l.cluster_pfx) i.src_path))) ∧
    ((local_flush s none none).2.flushq = []) := by
  refine ⟨?_, ?_, ?_⟩
  · simp [local_flush, flush_loop_rem, flushMatch]
  · simp [local_flush, flush_loop_rem, flushMatch, local_location_path_empty_name]
  · simp [local_flush, flush_loop_rem, flushMatch]

/-! ## Claim C9 -/

/-- C9: flushing with a name but no location returns `EINVAL` and leaves
the whole state (flush queue, marker files on disk, operation counters)
untouched: the check precedes even the `op_count` increment. -/
theorem C9_name_without_location (s : LocalStorage) (n : String) :
    local_flush s none (some n) = (EINVAL, s) := rfl

/-! ## Claim C3 -/

/-- C3 counterexample: `local_location_handle` accepts cluster strings
containing a path separator (`"a/b"`) and ones containing the tag
separator (`"x_y"`), because `local_config_dup` tests for the
two-character substring `"_/"` with `strstr`, not for the individual
characters.  The claim, which says such strings are rejected, is false. -/
theorem C3_counterexample :
    local_location_handle "b" "a/b" "k" =
        Except.ok { cluster_pfx := "a/b_", bucket := "b", kmsid := "k" } ∧
    ("a/b").data.contains '/' = true ∧
    local_location_handle "b" "x_y" "k" =
        Except.ok { cluster_pfx := "x_y_", bucket := "b", kmsid := "k" } ∧
    ("x_y").data.contains '_' = true := by
  refine ⟨?_, by decide, ?_, by decide⟩ <;> rfl

/-- C3 amended: location-open rejects (with `EINVAL`) exactly the
cluster strings that contain the two-character substring `"_/"`; every
other cluster string — including ones containing `'/'` or `'_'` alone —
is accepted, and the location is created with the fixed separator `"_"`
appended to form `cluster_prefix`. -/
theorem C3_amended (b c k : String) (hb : b ≠ "") :
    (containsSubstr c.data ("_/").data = true →
        local_location_handle b c k = Except.error EINVAL) ∧
    (containsSubstr c.data ("_/").data = false →
        local_location_handle b c k =
          Except.ok { cluster_pfx := c ++ "_", bucket := b, kmsid := k }) := by
  constructor <;> intro h <;>
    · unfold local_location_handle local_config_dup
      rw [if_neg hb]
      simp [h]
      rfl

theorem C3_witness :
    local_location_handle "b" "ab" "k" =
      Except.ok { cluster_pfx := "ab" ++ "_", bucket := "b", kmsid := "k" } :=
  (C3_amended "b" "ab" "k" (by decide)).2 (by decide)

/-! ## Claim C5 -/

/-- A cluster prefix whose only underscore is the final one appended by
`local_location_handle`, i.e. one produced from an underscore-free
cluster string. -/
def SingleTrailingUnderscore (cp : String) : Prop :=
  ∃ c : List Char, cp.data = c ++ ['_'] ∧ '_' ∉ c

theorem underscore_split (c1 : List Char) :
    ∀ (c2 n1 n2 : List Char), '_' ∉ c1 → '_' ∉ c2 →
      c1 ++ '_' :: n1 = c2 ++ '_' :: n2 → c1 = c2 ∧ n1 = n2 := by
  induction c1 with
  | nil =>
    intro c2 n1 n2 _ h2 he
    cases c2 with
    | nil => simpa using he
    | cons b t =>
      exfalso
      apply h2
      simp only [List.nil_append, List.cons_append, List.cons.injEq] at he
      simp [← he.1]
  | cons a t ih =>
    intro c2 n1 n2 h1 h2 he
    cases c2 with
    | nil =>
      exfalso
      apply h1
      simp only [List.cons_append, List.nil_append, List.cons.injEq] at he
      simp [he.1]
    | cons b t2 =>
      simp only [List.cons_append, List.cons.injEq] at he
      obtain ⟨rfl, he2⟩ := he
      have := ih t2 n1 n2 (by simp_all) (by simp_all) he2
      simp [this.1, this.2]

/-- C5 counterexample: two distinct (cluster_prefix, name) pairs in the
same bucket that alias to the same path.  Both cluster prefixes really
arise from accepted location opens (clusters `"a"` and `"a_b"`; the
latter is accepted because only the substring `"_/"` is rejected), so
the injectivity clause of the claim is false for the code. -/
theorem C5_counterexample :
    local_location_handle "b" "a" "k" =
        Except.ok { cluster_pfx := "a_", bucket := "b", kmsid := "k" } ∧
    local_location_handle "b" "a_b" "k" =
        Except.ok { cluster_pfx := "a_b_", bucket := "b", kmsid := "k" } ∧
    (("a_" : String), ("b_c" : String)) ≠ (("a_b_" : String), ("c" : String)) ∧
    local_location_path { cluster_pfx := "a_", bucket := "b", kmsid := "k" } "b_c" none =
      local_location_path { cluster_pfx := "a_b_", bucket := "b", kmsid := "k" } "c" none := by
  exact ⟨rfl, rfl, by decide, rfl⟩

/-- C5 amended: the path function returns exactly the concatenation
`bucket ++ "/" ++ marker ++ cluster_prefix ++ name` (empty marker when
absent) and is deterministic; the injectivity of
`(cluster_prefix, name)` for a fixed bucket holds under the additional
hypothesis that each cluster prefix contains `'_'` only as its final
character (true of every prefix built from an underscore-free cluster
string, but not enforced by the code, as the counterexample shows). -/
theorem C5_amended (loc loc2 : LocalLocation) (name name2 mk : String) :
    local_location_path loc name (some mk) =
        loc.bucket ++ "/" ++ mk ++ loc.cluster_pfx ++ name ∧
    local_location_path loc name none = loc.bucket ++ "/" ++ loc.cluster_pfx ++ name ∧
    local_location_path loc name (some mk) = local_location_path loc name (some mk) ∧
    (loc.bucket = loc2.bucket →
      SingleTrailingUnderscore loc.cluster_pfx →
      SingleTrailingUnderscore loc2.cluster_pfx →
      local_location_path loc name none = local_location_path loc2 name2 none →
      loc.cluster_pfx = loc2.cluster_pfx ∧ name = name2) := by
  refine ⟨rfl, ?_, rfl, ?_⟩
  · apply string_data_eq; simp [local_location_path]
  · rintro hb ⟨c1, hc1, hn1⟩ ⟨c2, hc2, hn2⟩ hpath
    have hdata : loc.bucket.data ++ '/' :: (c1 ++ '_' :: name.data) =
        loc2.bucket.data ++ '/' :: (c2 ++ '_' :: name2.data) := by
      have := congrArg String.data hpath
      simpa [local_location_path, hc1, hc2] using this
    rw [hb] at hdata
    have hmid := List.append_cancel_left hdata
    have hmid2 : c1 ++ '_' :: name.data = c2 ++ '_' :: name2.data := by
      simpa using hmid
    obtain ⟨hceq, hneq⟩ := underscore_split c1 c2 name.data name2.data hn1 hn2 hmid2
    constructor
    · apply string_data_eq; rw [hc1, hc2, hceq]
    · exact string_data_eq hneq

theorem C5_witness :
    local_location_path { cluster_pfx := "c_", bucket := "b", kmsid := "k" } "x" none
        = "b/c_x" ∧
    ("c_" : String) = "c_" := by
  have h := C5_amended { cluster_pfx := "c_", bucket := "b", kmsid := "k" }
    { cluster_pfx := "c_", bucket := "b", kmsid := "k" } "x" "x" "FLUSH_"
  refine ⟨h.2.1.trans (by decide), ?_⟩
  exact (h.2.2.2 rfl ⟨['c'], by decide, by decide⟩ ⟨['c'], by decide, by decide⟩ rfl).1

/-! ## Claim C1: fault injection during a drain -/

/-- The error-retention rule of the drain loop: the first nonzero
per-record result is the one returned to the caller. -/
def firstNonzero : List Int → Int
  | [] => 0
  | r :: rs => if r ≠ 0 then r else firstNonzero rs

/-- Per-record results the drain produces for `k` matched records when
the global flush counter starts at `c` and `force_error = n`: the record
whose processing brings the counter to a multiple of `n` reports
`ENETUNREACH`, the others succeed. -/
def expectedRets (n : Nat) : Nat → Nat → List Int
  | _, 0 => []
  | c, k + 1 =>
    (if (c + 1) % n = 0 then ENETUNREACH else 0) :: expectedRets n (c + 1) k

/-- Marker paths of the matched records whose simulated transfer
reports the injected error (these markers survive the drain). -/
def keptMarkers (n : Nat) : Nat → List FlushItem → List String
  | _, [] => []
  | c, i :: rest =>
    if (c + 1) % n = 0 then i.marker_path :: keptMarkers n (c + 1) rest
    else keptMarkers n (c + 1) rest

/-- Marker paths of the matched records whose simulated transfer
succeeds (these markers are unlinked by the drain). -/
def goneMarkers (n : Nat) : Nat → List FlushItem → List String
  | _, [] => []
  | c, i :: rest =>
    if (c + 1) % n = 0 then goneMarkers n (c + 1) rest
    else i.marker_path :: goneMarkers n (c + 1) rest

theorem firstNonzero_cons_zero (l : List Int) : firstNonzero (0 :: l) = firstNonzero l := by
  simp [firstNonzero]

theorem firstNonzero_cons_err (l : List Int) :
    firstNonzero (ENETUNREACH :: l) = ENETUNREACH := by
  norm_num [firstNonzero, ENETUNREACH]

theorem expectedRets_length (n : Nat) :
    ∀ (k c : Nat), (expectedRets n c k).length = k := by
  intro k
  induction k with
  | zero => intro c; rfl
  | succ k ih => intro c; simp [expectedRets, ih]

theorem expectedRets_get (n : Nat) :
    ∀ (k c j : Nat) (h : j < (expectedRets n c k).length),
      (expectedRets n c k).get ⟨j, h⟩ =
        if (c + j + 1) % n = 0 then ENETUNREACH else 0 := by
  intro k
  induction k with
  | zero => intro c j h; simp [expectedRets] at h
  | succ k ih =>
    intro c j h
    cases j with
    | zero => rfl
    | succ j =>
      have hj : j < (expectedRets n (c + 1) k).length := by
        simpa [expectedRets] using h
      have : (expectedRets n c (k + 1)).get ⟨j + 1, h⟩ =
          (expectedRets n (c + 1) k).get ⟨j, hj⟩ := rfl
      rw [this, ih (c + 1) j hj]
      have harith : c + 1 + j + 1 = c + (j + 1) + 1 := by omega
      rw [harith]

theorem keptMarkers_mem (n : Nat) :
    ∀ (m : List FlushItem) (c j : Nat) (h : j < m.length),
      (c + j + 1) % n = 0 → (m.get ⟨j, h⟩).marker_path ∈ keptMarkers n c m := by
  intro m
  induction m with
  | nil => intro c j h; simp at h
  | cons i rest ih =>
    intro c j h hj
    cases j with
    | zero => simp [keptMarkers, show (c + 1) % n = 0 from by simpa using hj]
    | succ j =>
      have h2 : j < rest.length := by simpa using h
      have harith : c + 1 + j + 1 = c + (j + 1) + 1 := by omega
      have hrec := ih (c + 1) j h2 (by rw [harith]; exact hj)
      have hget : ((i :: rest).get ⟨j + 1, h⟩) = rest.get ⟨j, h2⟩ := rfl
      rw [hget]
      simp only [keptMarkers]
      by_cases hc : (c + 1) % n = 0
      · rw [if_pos hc]
        exact List.mem_cons_of_mem _ hrec
      · rw [if_neg hc]
        exact hrec

theorem goneMarkers_mem (n : Nat) :
    ∀ (m : List FlushItem) (c j : Nat) (h : j < m.length),
      (c + j + 1) % n ≠ 0 → (m.get ⟨j, h⟩).marker_path ∈ goneMarkers n c m := by
  intro m
  induction m with
  | nil => intro c j h; simp at h
  | cons i rest ih =>
    intro c j h hj
    cases j with
    | zero => simp [goneMarkers, show (c + 1) % n ≠ 0 from by simpa using hj]
    | succ j =>
      have h2 : j < rest.length := by simpa using h
      have harith : c + 1 + j + 1 = c + (j + 1) + 1 := by omega
      have hrec := ih (c + 1) j h2 (by rw [harith]; exact hj)
      have hget : ((i :: rest).get ⟨j + 1, h⟩) = rest.get ⟨j, h2⟩ := rfl
      rw [hget]
      simp only [goneMarkers]
      by_cases hc : (c + 1) % n = 0
      · rw [if_pos hc]
        exact hrec
      · rw [if_neg hc]
        exact List.mem_cons_of_mem _ hrec

/-- Unfolding of `local_flush_one` when the source path contains a slash
and fault injection is configured. -/
theorem local_flush_one_slash (s : LocalStorage) (i : FlushItem)
    (hs : strHasSlash i.src_path = true) (hN : s.force_error ≠ 0) :
    local_flush_one s i =
      if (s.object_flushes + 1) % s.force_error = 0 then
        (ENETUNREACH, { s with object_flushes := s.object_flushes + 1 })
      else if i.marker_path ∈ s.disk then
        (0, { s with object_flushes := s.object_flushes + 1, disk := s.disk.erase i.marker_path })
      else (ENOENT, { s with object_flushes := s.object_flushes + 1 }) := by
  simp [local_flush_one, hs, hN]

/-- Behaviour of the full drain loop under fault injection, for a queue
whose matched records have slash-containing source paths and pairwise
distinct marker files all present on disk. -/
theorem flush_loop_drain (loc : Option LocalLocation) (name : Option String)
    (q : List FlushItem) :
    ∀ s : LocalStorage, s.force_error ≠ 0 →
      (∀ i ∈ q, flushMatch loc name i = true → strHasSlash i.src_path = true) →
      ((q.filter (flushMatch loc name)).map FlushItem.marker_path).Nodup →
      (∀ i ∈ q, flushMatch loc name i = true → i.marker_path ∈ s.disk) →
      (local_flush_loop loc name s q).1 =
          firstNonzero (expectedRets s.force_error s.object_flushes
            (q.filter (flushMatch loc name)).length) ∧
      (local_flush_loop loc name s q).2.1.object_flushes =
          s.object_flushes + (q.filter (flushMatch loc name)).length ∧
      (local_flush_loop loc name s q).2.1.disk ⊆ s.disk ∧
      (∀ p ∈ s.disk,
          p ∉ (q.filter (flushMatch loc name)).map FlushItem.marker_path →
          p ∈ (local_flush_loop loc name s q).2.1.disk) ∧
      (∀ p ∈ keptMarkers s.force_error s.object_flushes
          (q.filter (flushMatch loc name)),
          p ∈ (local_flush_loop loc name s q).2.1.disk) ∧
      (∀ p ∈ goneMarkers s.force_error s.object_flushes
          (q.filter (flushMatch loc name)),
          p ∉ (local_flush_loop loc name s q).2.1.disk) := by
  induction q with
  | nil =>
    intro s hN _ _ _
    refine ⟨rfl, rfl, Finset.Subset.refl _, ?_, ?_, ?_⟩ <;>
      simp [local_flush_loop, keptMarkers, goneMarkers]
  | cons i rest ih =>
    intro s hN hsl hnd hdk
    by_cases hm : flushMatch loc name i = true
    · have hslash : strHasSlash i.src_path = true := hsl i (by simp) hm
      have hfil : (i :: rest).filter (flushMatch loc name) =
          i :: rest.filter (flushMatch loc name) := by
        simp [List.filter_cons, hm]
      rw [hfil] at hnd
      have hnd1 : i.marker_path ∉
          (rest.filter (flushMatch loc name)).map FlushItem.marker_path :=
        (List.nodup_cons.mp (by simpa using hnd)).1
      have hnd2 : ((rest.filter (flushMatch loc name)).map FlushItem.marker_path).Nodup :=
        (List.nodup_cons.mp (by simpa using hnd)).2
      by_cases herr : (s.object_flushes + 1) % s.force_error = 0
      · -- the simulated transfer of record i reports the injected error
        have hone : local_flush_one s i =
            (ENETUNREACH, { s with object_flushes := s.object_flushes + 1 }) := by
          rw [local_flush_one_slash s i hslash hN, if_pos herr]
        have hloop : local_flush_loop loc name s (i :: rest) =
            (ENETUNREACH,
              (local_flush_loop loc name
                { s with object_flushes := s.object_flushes + 1 } rest).2.1,
              (local_flush_loop loc name
                { s with object_flushes := s.object_flushes + 1 } rest).2.2) := by
          simp [local_flush_loop, hm, hone, ENETUNREACH]
        have hIH := ih { s with object_flushes := s.object_flushes + 1 } hN
          (fun j hj hmj => hsl j (by simp [hj]) hmj) hnd2
          (fun j hj hmj => hdk j (by simp [hj]) hmj)
        refine ⟨?_, ?_, ?_, ?_, ?_, ?_⟩
        · rw [hloop, hfil]
          simp only [List.length_cons, expectedRets]
          rw [if_pos herr, firstNonzero_cons_err]
        · have h2 : (local_flush_loop loc name
              { s with object_flushes := s.object_flushes + 1 } rest).2.1.object_flushes =
              s.object_flushes + 1 + (rest.filter (flushMatch loc name)).length := hIH.2.1
          rw [hloop, hfil]
          simp only [List.length_cons]
          omega
        · rw [hloop]
          exact hIH.2.2.1
        · intro p hp hpn
          rw [hloop]
          rw [hfil] at hpn
          simp only [List.map_cons, List.mem_cons, not_or] at hpn
          exact hIH.2.2.2.1 p hp hpn.2
        · intro p hp
          rw [hloop]
          rw [hfil] at hp
          simp only [keptMarkers] at hp
          rw [if_pos herr] at hp
          rcases List.mem_cons.mp hp with rfl | hp2
          · exact hIH.2.2.2.1 i.marker_path (hdk i (by simp) hm) hnd1
          · exact hIH.2.2.2.2.1 p hp2
        · intro p hp
          rw [hloop]
          rw [hfil] at hp
          simp only [goneMarkers] at hp
          rw [if_pos herr] at hp
          exact hIH.2.2.2.2.2 p hp
      · -- the simulated transfer of record i succeeds; its marker is unlinked
        have hmem : i.marker_path ∈ s.disk := hdk i (by simp) hm
        have hone : local_flush_one s i =
            (0, { s with object_flushes := s.object_flushes + 1, disk := s.disk.erase i.marker_path }) := by
          rw [local_flush_one_slash s i hslash hN, if_neg herr, if_pos hmem]
        have hloop : local_flush_loop loc name s (i :: rest) =
            ((local_flush_loop loc name
                { s with object_flushes := s.object_flushes + 1, disk := s.disk.erase i.marker_path } rest).1,
              (local_flush_loop loc name
                { s with object_flushes := s.object_flushes + 1, disk := s.disk.erase i.marker_path } rest).2.1,
              (local_flush_loop loc name
                { s with object_flushes := s.object_flushes + 1, disk := s.disk.erase i.marker_path } rest).2.2) := by
          simp [local_flush_loop, hm, hone]
        have hIH := ih { s with object_flushes := s.object_flushes + 1, disk := s.disk.erase i.marker_path } hN
          (fun j hj hmj => hsl j (by simp [hj]) hmj) hnd2
          (fun j hj hmj => by
            have hjm : j.marker_path ∈ s.disk := hdk j (by simp [hj]) hmj
            have hne : j.marker_path ≠ i.marker_path := by
              intro hcontra
              apply hnd1
              rw [← hcontra]
              exact List.mem_map_of_mem FlushItem.marker_path
                (List.mem_filter.mpr ⟨hj, hmj⟩)
            exact Finset.mem_erase.mpr ⟨hne, hjm⟩)
        refine ⟨?_, ?_, ?_, ?_, ?_, ?_⟩
        · have h1 : (local_flush_loop loc name
              { s with object_flushes := s.object_flushes + 1, disk := s.disk.erase i.marker_path } rest).1 =
              firstNonzero (expectedRets s.force_error (s.object_flushes + 1)
                (rest.filter (flushMatch loc name)).length) := hIH.1
          rw [hloop, hfil]
          simp only [List.length_cons, expectedRets]
          rw [if_neg herr, firstNonzero_cons_zero]
          exact h1
        · have h2 : (local_flush_loop loc name
              { s with object_flushes := s.object_flushes + 1, disk := s.disk.erase i.marker_path } rest).2.1.object_flushes =
              s.object_flushes + 1 + (rest.filter (flushMatch loc name)).length := hIH.2.1
          rw [hloop, hfil]
          simp only [List.length_cons]
          omega
        · rw [hloop]
          exact hIH.2.2.1.trans (Finset.erase_subset _ _)
        · intro p hp hpn
          rw [hloop]
          rw [hfil] at hpn
          simp only [List.map_cons, List.mem_cons, not_or] at hpn
          exact hIH.2.2.2.1 p (Finset.mem_erase.mpr ⟨hpn.1, hp⟩) hpn.2
        · intro p hp
          rw [hloop]
          rw [hfil] at hp
          simp only [keptMarkers] at hp
          rw [if_neg herr] at hp
          exact hIH.2.2.2.2.1 p hp
        · intro p hp
          rw [hloop]
          rw [hfil] at hp
          simp only [goneMarkers] at hp
          rw [if_neg herr] at hp
          rcases List.mem_cons.mp hp with rfl | hp2
          · intro hcontra
            exact Finset.not_mem_erase i.marker_path s.disk (hIH.2.2.1 hcontra)
          · exact hIH.2.2.2.2.2 p hp2
    · -- record i does not match: it stays on the queue, untouched
      simp only [Bool.not_eq_true] at hm
      have hfil : (i :: rest).filter (flushMatch loc name) =
          rest.filter (flushMatch loc name) := by
        simp [List.filter_cons, hm]
      rw [hfil] at hnd
      have hloop : local_flush_loop loc name s (i :: rest) =
          ((local_flush_loop loc name s rest).1,
            (local_flush_loop loc name s rest).2.1,
            i :: (local_flush_loop loc name s rest).2.2) := by
        simp [local_flush_loop, hm]
      have hIH := ih s hN (fun j hj hmj => hsl j (by simp [hj]) hmj) hnd
        (fun j hj hmj => hdk j (by simp [hj]) hmj)
      refine ⟨?_, ?_, ?_, ?_, ?_, ?_⟩
      · rw [hloop, hfil]; exact hIH.1
      · rw [hloop, hfil]; exact hIH.2.1
      · rw [hloop]; exact hIH.2.2.1
      · intro p hp hpn
        rw [hloop]
        rw [hfil] at hpn
        exact hIH.2.2.2.1 p hp hpn
      · intro p hp
        rw [hloop]
        rw [hfil] at hp
        exact hIH.2.2.2.2.1 p hp
      · intro p hp
        rw [hloop]
        rw [hfil] at hp
        exact hIH.2.2.2.2.2 p hp

/-- Dispatch of `local_flush` for the argument combinations that reach
the drain loop. -/
theorem local_flush_eq (s : LocalStorage) (loc : Option LocalLocation)
    (name : Option String) (h : loc = none → name = none) :
    local_flush s loc name =
      ((local_flush_loop loc name { s with op_count := s.op_count + 1 } s.flushq).1,
        { (local_flush_loop loc name { s with op_count := s.op_count + 1 } s.flushq).2.1
            with
          flushq :=
            (local_flush_loop loc name { s with op_count := s.op_count + 1 }
              s.flushq).2.2 }) := by
  rcases loc with _ | l
  · rcases name with _ | n
    · rfl
    · exact absurd (h rfl) (by simp)
  · rcases name with _ | n <;> rfl

/-- Storage state of the C1 counterexample: `force_error = 1`, one
pending record whose marker file exists on disk. -/
def cexStorage : LocalStorage :=
  { force_error := 1, object_flushes := 0, op_count := 0,
    flushq := [{ src_path := "b/c_x", marker_path := "b/FLUSH_c_x",
                 bucket := "b", kmsid := "k" }],
    disk := {"b/FLUSH_c_x"} }

/-- C1 counterexample: with `force_error = 1` the drained record reports
`ENETUNREACH` and is removed from the queue, but — contrary to the claim
— its marker file is NOT deleted from disk: `local_flush_one` returns
before the `unlink` when the simulated transfer fails
(local_store.c:555-556). -/
theorem C1_counterexample :
    (local_flush cexStorage none none).1 = ENETUNREACH ∧
    (local_flush cexStorage none none).2.flushq = [] ∧
    "b/FLUSH_c_x" ∈ (local_flush cexStorage none none).2.disk := by
  refine ⟨rfl, rfl, ?_⟩
  decide

/-- C1 amended: in a drain with `force_error = N > 0` (matched records
having slash-containing source paths and pairwise distinct marker files
all present on disk), the k-th matched record — the one whose processing
brings the global flush count `c0` to `c0 + k`, counted across all
locations — reports `ENETUNREACH` exactly when `c0 + k` is a multiple of
`N`; every matched record (error or not) is removed from the flush
queue, but only the markers of the non-erroring records are deleted
from disk: an erroring record's marker file survives.  The first error
among all matches is returned while draining continues over the
remaining matches. -/
theorem C1_amended (s : LocalStorage) (loc : Option LocalLocation)
    (name : Option String)
    (hN : 0 < s.force_error)
    (hargs : loc = none → name = none)
    (hsrc : ∀ i ∈ s.flushq, flushMatch loc name i = true → strHasSlash i.src_path = true)
    (hnd : ((s.flushq.filter (flushMatch loc name)).map FlushItem.marker_path).Nodup)
    (hdisk : ∀ i ∈ s.flushq, flushMatch loc name i = true → i.marker_path ∈ s.disk) :
    (local_flush s loc name).1 =
        firstNonzero (expectedRets s.force_error s.object_flushes
          (s.flushq.filter (flushMatch loc name)).length) ∧
    (∀ j (h : j < (expectedRets s.force_error s.object_flushes
          (s.flushq.filter (flushMatch loc name)).length).length),
        (expectedRets s.force_error s.object_flushes
          (s.flushq.filter (flushMatch loc name)).length).get ⟨j, h⟩ =
          if (s.object_flushes + j + 1) % s.force_error = 0 then ENETUNREACH else 0) ∧
    (local_flush s loc name).2.flushq =
        s.flushq.filter (fun i => ! flushMatch loc name i) ∧
    (local_flush s loc name).2.object_flushes =
        s.object_flushes + (s.flushq.filter (flushMatch loc name)).length ∧
    (∀ j (h : j < (s.flushq.filter (flushMatch loc name)).length),
        (s.object_flushes + j + 1) % s.force_error = 0 →
        ((s.flushq.filter (flushMatch loc name)).get ⟨j, h⟩).marker_path ∈
          (local_flush s loc name).2.disk) ∧
    (∀ j (h : j < (s.flushq.filter (flushMatch loc name)).length),
        (s.object_flushes + j + 1) % s.force_error ≠ 0 →
        ((s.flushq.filter (flushMatch loc name)).get ⟨j, h⟩).marker_path ∉
          (local_flush s loc name).2.disk) := by
  have hN' : s.force_error ≠ 0 := Nat.pos_iff_ne_zero.mp hN
  have hdrain := flush_loop_drain loc name s.flushq
    { s with op_count := s.op_count + 1 } hN' hsrc hnd hdisk
  rw [local_flush_eq s loc name hargs]
  refine ⟨hdrain.1, ?_, ?_, hdrain.2.1, ?_, ?_⟩
  · intro j h
    exact expectedRets_get s.force_error _ s.object_flushes j h
  · exact flush_loop_rem loc name s.flushq { s with op_count := s.op_count + 1 }
  · intro j h hj
    exact hdrain.2.2.2.2.1 _
      (keptMarkers_mem s.force_error (s.flushq.filter (flushMatch loc name))
        s.object_flushes j h hj)
  · intro j h hj
    exact hdrain.2.2.2.2.2 _
      (goneMarkers_mem s.force_error (s.flushq.filter (flushMatch loc name))
        s.object_flushes j h hj)

/-- Storage state of the C1 witness: `force_error = 2`, two pending
records with distinct markers both on disk. -/
def witStorage : LocalStorage :=
  { force_error := 2, object_flushes := 0, op_count := 0,
    flushq := [{ src_path := "b/c_x", marker_path := "b/FLUSH_c_x",
                 bucket := "b", kmsid := "k" },
               { src_path := "b/c_y", marker_path := "b/FLUSH_c_y",
                 bucket := "b", kmsid := "k" }],
    disk := {"b/FLUSH_c_x", "b/FLUSH_c_y"} }

theorem C1_witness :
    (local_flush witStorage none none).1 = firstNonzero (expectedRets 2 0 2) :=
  (C1_amended witStorage none none (by decide) (fun _ => rfl) (by decide)
    (by decide) (by decide)).1

/-! ## Claim C2: handle close, enqueue vs. rename -/

/-- `LOCAL_FILE_HANDLE` (local_store.c:110-120): final path, temporary
path (set only for a creating handle) and the owned flush record (set
only for a creating handle whose close is still outstanding).  The file
descriptor is not modelled; whether `close(fd)` succeeds is part of the
environment below. -/
structure LocalFileHandle where
  path : String
  temp_path : Option String
  flush : Option FlushItem
deriving DecidableEq, Repr

/-- File-system events performed by a handle close, in order. -/
inductive CloseEvent where
  | enqueued (src_path : String)
  | fdClosed (ok : Bool)
  | renamed (src dst : String) (ok : Bool)
deriving DecidableEq, Repr

/-- Outcome of the file-system calls a close performs (success of
`close(fd)` and of `rename`). -/
structure CloseEnv where
  closeOk : Bool
  renameOk : Bool
deriving DecidableEq, Repr

/-- `local_file_close_internal` (local_store.c:1078-1104): close the
descriptor; if this is a normal close (`final = false`), the close
succeeded and the handle owns a temp path, rename the temp file onto the
final path.  Returns the result and the trace of file-system events. -/
def local_file_close_internal (fh : LocalFileHandle) (final : Bool) (env : CloseEnv) :
    Int × List CloseEvent :=
  let cret : Int := if env.closeOk then 0 else EIO_ERR
  match fh.temp_path with
  | some tp =>
    if final = false ∧ cret = 0 then
      ((if env.renameOk then 0 else EIO_ERR),
        [CloseEvent.fdClosed env.closeOk, CloseEvent.renamed tp fh.path env.renameOk])
    else (cret, [CloseEvent.fdClosed env.closeOk])
  | none => (cret, [CloseEvent.fdClosed env.closeOk])

/-- `local_file_close` (local_store.c:1022-1072): remove the handle from
the handle queue (locks always succeed in the model), and if the handle
owns a flush record, insert the record at the HEAD of the flush queue
and stamp its `src_path` with the final path — all of this happens
BEFORE `local_file_close_internal` runs the rename.  Returns the result,
the new flush queue and the event trace.  (The C code sets `src_path`
just after releasing the flush lock and before `close_internal`; the
record is already on the queue at that point, so its completed value is
as modelled.) -/
def local_file_close (flushq : List FlushItem) (fh : LocalFileHandle) (env : CloseEnv) :
    Int × List FlushItem × List CloseEvent :=
  match fh.flush with
  | some f =>
    let stamped : FlushItem := { f with src_path := fh.path }
    let inner := local_file_close_internal { fh with flush := none } false env
    (inner.1, stamped :: flushq, CloseEvent.enqueued fh.path :: inner.2)
  | none =>
    let inner := local_file_close_internal fh false env
    (inner.1, flushq, inner.2)

/-- Handle used by the C2 counterexample: freshly created object whose
rename will fail. -/
def cexCloseHandle : LocalFileHandle :=
  { path := "b/c_x", temp_path := some "b/TEMP_c_x",
    flush := some { src_path := "", marker_path := "b/FLUSH_c_x",
                    bucket := "b", kmsid := "k" } }

/-- C2 counterexample: closing a creating handle whose rename FAILS
still leaves the flush record enqueued (head of the queue, stamped with
the final path); the trace shows the enqueue occurring strictly before
the rename is even attempted.  Both halves of the claim — "enqueued only
after the rename has succeeded" and "on rename failure the record is
discarded, never enqueued" — are false for the code. -/
theorem C2_counterexample :
    (local_file_close [] cexCloseHandle { closeOk := true, renameOk := false }).2.1 =
      [{ src_path := "b/c_x", marker_path := "b/FLUSH_c_x",
         bucket := "b", kmsid := "k" }] ∧
    (local_file_close [] cexCloseHandle { closeOk := true, renameOk := false }).1 ≠ 0 ∧
    (local_file_close [] cexCloseHandle { closeOk := true, renameOk := false }).2.2 =
      [CloseEvent.enqueued "b/c_x", CloseEvent.fdClosed true,
        CloseEvent.renamed "b/TEMP_c_x" "b/c_x" false] := by
  refine ⟨rfl, by decide, rfl⟩

/-- C2 amended: on close of a handle that created an object, the flush
record is stamped with the final path and inserted at the head of the
flush queue BEFORE the rename of the temp path is attempted (the
enqueue is the first event of the close, preceding any rename); if the
rename then fails, the close returns the error but the record REMAINS
enqueued — it is not discarded — and the marker file is untouched by the
close. -/
theorem C2_amended (q : List FlushItem) (fh : LocalFileHandle) (f : FlushItem)
    (env : CloseEnv) (hf : fh.flush = some f) :
    (local_file_close q fh env).2.1 = { f with src_path := fh.path } :: q ∧
    (local_file_close q fh env).2.2.head? = some (CloseEvent.enqueued fh.path) ∧
    (∀ tp, fh.temp_path = some tp → env.closeOk = true → env.renameOk = false →
      (local_file_close q fh env).1 = EIO_ERR ∧
      { f with src_path := fh.path } ∈ (local_file_close q fh env).2.1) := by
  refine ⟨?_, ?_, ?_⟩
  · simp [local_file_close, hf]
  · simp [local_file_close, hf]
  · intro tp htp hc hr
    constructor
    · simp [local_file_close, hf, local_file_close_internal, htp, hc, hr, EIO_ERR]
    · simp [local_file_close, hf]

theorem C2_witness :
    (local_file_close [] cexCloseHandle { closeOk := true, renameOk := false }).2.2.head? =
      some (CloseEvent.enqueued "b/c_x") :=
  (C2_amended [] cexCloseHandle
    { src_path := "", marker_path := "b/FLUSH_c_x", bucket := "b", kmsid := "k" }
    { closeOk := true, renameOk := false } rfl).2.1

/-! ## Claims C7 and C10: object open -/

/-- Modelled from the spec: the open-flag constants `WT_SS_OPEN_CREATE`
and `WT_SS_OPEN_READONLY` are declared in `wiredtiger_ext.h`, which is
not part of the sources; `local_open` only compares `flags` against them
for equality, so only their distinctness matters. -/
def WT_SS_OPEN_CREATE : Nat := 1

/-- Modelled from the spec: see `WT_SS_OPEN_CREATE`. -/
def WT_SS_OPEN_READONLY : Nat := 2

/-- File-system events performed by `local_open`, in order:
creation of the zero-byte flush marker (`open(marker, O_CREAT)`),
close of the marker descriptor, and the opening of the data file (the
temp path in create mode, the final path in read-only mode). -/
inductive OpenEvent where
  | createMarkerFile (p : String) (ok : Bool)
  | closeMarkerFd (ok : Bool)
  | openDataFile (p : String) (ok : Bool)
deriving DecidableEq, Repr

/-- Success/failure of the file-system calls `local_open` makes. -/
structure OpenEnv where
  markerOpenOk : Bool
  markerCloseOk : Bool
  dataOpenOk : Bool
deriving DecidableEq, Repr

/-- Outcome of `local_open`.  `crash` marks the undefined behaviour of
the error path: `goto err` runs `local_file_close_internal(local, session,
local_fh, true)` (local_store.c:918-921) which dereferences `local_fh->fd`
(local_store.c:1085) — a NULL-pointer dereference whenever the error was
raised before the handle was allocated, as happens for invalid flags. -/
inductive OpenOutcome where
  | ok (fh : LocalFileHandle)
  | err (code : Int)
  | crash
deriving DecidableEq, Repr

/-- `local_open` (local_store.c:795-923).  In create mode the marker
file is created and its descriptor closed before the temp file is opened
for writing; any failure aborts with an error (no temp open).  In
read-only mode the final path is opened directly.  Any other flags value
sets `ret = EINVAL` and jumps to the error path with `local_fh == NULL`,
which dereferences the null handle: modelled as `crash`. -/
def local_open (loc : LocalLocation) (name : String) (flags : Nat) (env : OpenEnv) :
    OpenOutcome × List OpenEvent :=
  if flags = WT_SS_OPEN_CREATE then
    let marker := local_location_path loc name (some MARKER_NEED_FLUSH)
    let tempp := local_location_path loc name (some MARKER_TEMPORARY)
    let finalp := local_location_path loc name none
    if env.markerOpenOk = false then
      (OpenOutcome.err EIO_ERR, [OpenEvent.createMarkerFile marker false])
    else if env.markerCloseOk = false then
      (OpenOutcome.err EIO_ERR,
        [OpenEvent.createMarkerFile marker true, OpenEvent.closeMarkerFd false])
    else if env.dataOpenOk = false then
      (OpenOutcome.err EIO_ERR,
        [OpenEvent.createMarkerFile marker true, OpenEvent.closeMarkerFd true,
          OpenEvent.openDataFile tempp false])
    else
      (OpenOutcome.ok
          { path := finalp, temp_path := some tempp,
            flush := some { src_path := "", marker_path := marker,
                            bucket := loc.bucket, kmsid := loc.kmsid } },
        [OpenEvent.createMarkerFile marker true, OpenEvent.closeMarkerFd true,
          OpenEvent.openDataFile tempp true])
  else if flags = WT_SS_OPEN_READONLY then
    let finalp := local_location_path loc name none
    if env.dataOpenOk = false then
      (OpenOutcome.err EIO_ERR, [OpenEvent.openDataFile finalp false])
    else
      (OpenOutcome.ok { path := finalp, temp_path := none, flush := none },
        [OpenEvent.openDataFile finalp true])
  else
    (OpenOutcome.crash, [])

/-- C7: in every create-mode open, whenever the data (temp) file is
opened, the first two events are the successful creation of the `FLUSH_`
marker file and the successful close of its descriptor — so the marker
exists on disk strictly before any byte can be written to the temp
file — and the file opened for writing is the `TEMP_` path; if marker
creation fails, `local_open` fails without ever opening the temp file. -/
theorem C7_marker_before_temp (loc : LocalLocation) (name : String) (env : OpenEnv) :
    (∀ p b, OpenEvent.openDataFile p b ∈ (local_open loc name WT_SS_OPEN_CREATE env).2 →
      p = local_location_path loc name (some MARKER_TEMPORARY) ∧
      (local_open loc name WT_SS_OPEN_CREATE env).2.take 2 =
        [OpenEvent.createMarkerFile
            (local_location_path loc name (some MARKER_NEED_FLUSH)) true,
          OpenEvent.closeMarkerFd true]) ∧
    (env.markerOpenOk = false →
      (local_open loc name WT_SS_OPEN_CREATE env).1 = OpenOutcome.err EIO_ERR ∧
      (local_open loc name WT_SS_OPEN_CREATE env).2 =
        [OpenEvent.createMarkerFile
            (local_location_path loc name (some MARKER_NEED_FLUSH)) false]) := by
  obtain ⟨mo, mc, dk⟩ := env
  cases mo <;> cases mc <;> cases dk <;>
    constructor <;>
    first
      | (intro p b hp
         simp only [local_open, if_pos rfl] at hp ⊢
         simp at hp ⊢
         simp_all)
      | (intro h
         simp only [local_open, if_pos rfl]
         simp_all)

theorem C7_witness :
    (local_open { cluster_pfx := "c_", bucket := "b", kmsid := "k" } "x"
        WT_SS_OPEN_CREATE
        { markerOpenOk := false, markerCloseOk := true, dataOpenOk := true }).1 =
      OpenOutcome.err EIO_ERR :=
  ((C7_marker_before_temp { cluster_pfx := "c_", bucket := "b", kmsid := "k" } "x"
      { markerOpenOk := false, markerCloseOk := true, dataOpenOk := true }).2 rfl).1

/-- C10: opening with a flags value that is neither `WT_SS_OPEN_CREATE`
nor `WT_SS_OPEN_READONLY` does NOT return `EINVAL` cleanly: after
setting `ret = EINVAL` the code jumps to the error path, which calls
`local_file_close_internal` with the still-NULL handle and dereferences
it — undefined behaviour (crash) with no file-system event performed. -/
theorem C10_invalid_flags (loc : LocalLocation) (name : String) (flags : Nat)
    (env : OpenEnv) (h1 : flags ≠ WT_SS_OPEN_CREATE) (h2 : flags ≠ WT_SS_OPEN_READONLY) :
    local_open loc name flags env = (OpenOutcome.crash, []) := by
  simp [local_open, h1, h2]

theorem C10_witness :
    local_open { cluster_pfx := "c_", bucket := "b", kmsid := "k" } "x" 0
        { markerOpenOk := true, markerCloseOk := true, dataOpenOk := true } =
      (OpenOutcome.crash, []) :=
  C10_invalid_flags { cluster_pfx := "c_", bucket := "b", kmsid := "k" } "x" 0
    { markerOpenOk := true, markerCloseOk := true, dataOpenOk := true }
    (by decide) (by decide)

/-! ## Claim C6: listing -/

/-- The per-entry filter of the `readdir` loop of
`local_location_list_internal` (local_store.c:734-758): skip `.` and
`..`; with no marker requested skip entries beginning with either
reserved tag; with a marker requested keep only entries beginning with
it and strip it; then require and strip the cluster prefix; finally
apply the optional caller prefix.  Returns the name to be stored, or
`none` when the entry is skipped. -/
def listAccept (cluster : String) (marker : Option String) (pfx : Option String)
    (e : String) : Option String :=
  if e = "." ∨ e = ".." then none
  else
    let after :=
      match marker with
      | none =>
        if strStartsWith MARKER_TEMPORARY e ∨ strStartsWith MARKER_NEED_FLUSH e then
          none
        else some e
      | some m =>
        if strStartsWith m e then some (strDrop e (strLen m)) else none
    match after with
    | none => none
    | some b =>
      if strStartsWith cluster b then
        let b2 := strDrop b (strLen cluster)
        match pfx with
        | none => some b2
        | some p => if strStartsWith p b2 then some b2 else none
      else none

/-- The `readdir` loop of `local_location_list_internal`
(local_store.c:734-774): walk the directory entries in enumeration
order, stopping once `limit` entries have been accepted (`limit = 0`
means unbounded). -/
def local_location_list_loop (cluster : String) (marker : Option String)
    (pfx : Option String) (limit : Nat) : List String → Nat → List String
  | [], _ => []
  | e :: rest, count =>
    if limit ≠ 0 ∧ limit ≤ count then []
    else
      match listAccept cluster marker pfx e with
      | none => local_location_list_loop cluster marker pfx limit rest count
      | some b => b :: local_location_list_loop cluster marker pfx limit rest (count + 1)

/-- `local_location_list_internal` (local_store.c:700-789) on a given
directory content (the entries `readdir` would yield, in filesystem
enumeration order). -/
def local_location_list_internal (loc : LocalLocation) (marker : Option String)
    (pfx : Option String) (limit : Nat) (entries : List String) : List String :=
  local_location_list_loop loc.cluster_pfx marker pfx limit entries 0

/-- `local_location_list` (local_store.c:667-675): the public listing
never passes a marker. -/
def local_location_list (loc : LocalLocation) (pfx : Option String) (limit : Nat)
    (entries : List String) : List String :=
  local_location_list_internal loc none pfx limit entries

theorem list_loop_limit_zero (cluster : String) (marker : Option String)
    (pfx : Option String) (entries : List String) :
    ∀ count, local_location_list_loop cluster marker pfx 0 entries count =
      entries.filterMap (listAccept cluster marker pfx) := by
  induction entries with
  | nil => intro count; rfl
  | cons e rest ih =>
    intro count
    cases ha : listAccept cluster marker pfx e <;>
      simp [local_location_list_loop, List.filterMap_cons, ha, ih]

theorem list_loop_limit_pos (cluster : String) (marker : Option String)
    (pfx : Option String) (limit : Nat) (hl : limit ≠ 0) (entries : List String) :
    ∀ count, local_location_list_loop cluster marker pfx limit entries count =
      (entries.filterMap (listAccept cluster marker pfx)).take (limit - count) := by
  induction entries with
  | nil => intro count; simp [local_location_list_loop]
  | cons e rest ih =>
    intro count
    by_cases hc : limit ≤ count
    · have hz : limit - count = 0 := Nat.sub_eq_zero_of_le hc
      simp [local_location_list_loop, hl, hc, hz]
    · have hlt : count < limit := Nat.lt_of_not_le hc
      have hsucc : limit - count = (limit - (count + 1)) + 1 := by omega
      cases ha : listAccept cluster marker pfx e
      · simp [local_location_list_loop, hl, hc, List.filterMap_cons, ha, ih]
      · simp only [local_location_list_loop, hl, hc, and_false, ne_eq,
          not_false_eq_true, and_true, if_false, List.filterMap_cons, ha, ih,
          if_neg (by omega : ¬ (limit ≠ 0 ∧ limit ≤ count))]
        rw [hsucc, List.take_succ_cons]

/-- C6: an ordinary listing (no marker) returns, in filesystem
enumeration order, exactly the entries that are not `.` or `..`, do not
begin with `TEMP_` or `FLUSH_`, begin with the location's cluster prefix
(which is stripped), and — when a caller prefix is supplied — whose
stripped remainder begins with it; `limit = 0` returns all matches and
`limit > 0` truncates to the first `limit` matches, so the count never
exceeds the limit. -/
theorem C6_listing (loc : LocalLocation) (pfx : Option String) (limit : Nat)
    (entries : List String) :
    (limit = 0 → local_location_list loc pfx limit entries =
        entries.filterMap (listAccept loc.cluster_pfx none pfx)) ∧
    (0 < limit → local_location_list loc pfx limit entries =
        (entries.filterMap (listAccept loc.cluster_pfx none pfx)).take limit) ∧
    (0 < limit → (local_location_list loc pfx limit entries).length ≤ limit) ∧
    (∀ e r, listAccept loc.cluster_pfx none pfx e = some r ↔
        (e ≠ "." ∧ e ≠ ".." ∧
          strStartsWith MARKER_TEMPORARY e = false ∧
          strStartsWith MARKER_NEED_FLUSH e = false ∧
          strStartsWith loc.cluster_pfx e = true ∧
          r = strDrop e (strLen loc.cluster_pfx) ∧
          (∀ p, pfx = some p → strStartsWith p r = true))) := by
  have hpos : 0 < limit → local_location_list loc pfx limit entries =
      (entries.filterMap (listAccept loc.cluster_pfx none pfx)).take limit := by
    intro h
    have := list_loop_limit_pos loc.cluster_pfx none pfx limit
      (Nat.pos_iff_ne_zero.mp h) entries 0
    simpa [local_location_list, local_location_list_internal] using this
  refine ⟨?_, hpos, ?_, ?_⟩
  · intro h
    subst h
    exact list_loop_limit_zero loc.cluster_pfx none pfx entries 0
  · intro h
    rw [hpos h]
    exact le_trans (List.length_take_le _ _) (le_refl _)
  · intro e r
    constructor
    · intro h
      by_cases hdot : e = "." ∨ e = ".."
      · simp [listAccept, hdot] at h
      · push_neg at hdot
        by_cases htag : strStartsWith MARKER_TEMPORARY e = true ∨
            strStartsWith MARKER_NEED_FLUSH e = true
        · rcases htag with ht | ht <;> simp [listAccept, hdot.1, hdot.2, ht] at h
        · push_neg at htag
          simp only [Bool.not_eq_true] at htag
          by_cases hcl : strStartsWith loc.cluster_pfx e = true
          · cases pfx with
            | none =>
              have hr : r = strDrop e (strLen loc.cluster_pfx) := by
                simp [listAccept, hdot.1, hdot.2, htag.1, htag.2, hcl] at h
                exact h.symm
              exact ⟨hdot.1, hdot.2, htag.1, htag.2, hcl, hr,
                fun p hp => by cases hp⟩
            | some p =>
              by_cases hp : strStartsWith p (strDrop e (strLen loc.cluster_pfx)) = true
              · have hr : r = strDrop e (strLen loc.cluster_pfx) := by
                  simp [listAccept, hdot.1, hdot.2, htag.1, htag.2, hcl, hp] at h
                  exact h.symm
                refine ⟨hdot.1, hdot.2, htag.1, htag.2, hcl, hr, ?_⟩
                intro p2 hp2
                injection hp2 with hp2
                subst hp2
                rw [hr]
                exact hp
              · simp [listAccept, hdot.1, hdot.2, htag.1, htag.2, hcl, hp] at h
          · simp [listAccept, hdot.1, hdot.2, htag.1, htag.2, hcl] at h
    · rintro ⟨h1, h2, h3, h4, h5, rfl, h7⟩
      cases pfx with
      | none => simp [listAccept, h1, h2, h3, h4, h5]
      | some p => simp [listAccept, h1, h2, h3, h4, h5, h7 p rfl]

theorem C6_witness :
    local_location_list { cluster_pfx := "c_", bucket := "b", kmsid := "k" }
        (some "a") 2
        [".", "..", "TEMP_c_ax", "FLUSH_c_ax", "c_ab", "c_xy", "c_ac", "c_ad"] =
      ["ab", "ac"] := by
  have h := (C6_listing { cluster_pfx := "c_", bucket := "b", kmsid := "k" }
    (some "a") 2
    [".", "..", "TEMP_c_ax", "FLUSH_c_ax", "c_ab", "c_xy", "c_ac", "c_ad"]).2.1
    (by decide)
  rw [h]
  decide

/-! ## Claim C8: the read/write retry loops -/

/-- The retry loop shared by `local_file_read` (local_store.c:1126-1150)
and `local_file_write` (local_store.c:1198-1222):
`for (addr = buf; ret == 0 && len > 0;)` with
`addr += nbytes; len -= nbytes; offset += nbytes` after each transfer.
`env k l` is the result of the k-th `pread`/`pwrite` call when `l` bytes
are requested (negative = failure with errno).  The state is
(call index, bytes transferred so far = `addr - buf`, remaining `len`,
current `offset`); `fuel` bounds the number of iterations the model is
allowed to observe, `none` meaning the loop is still running after that
many iterations. -/
def local_file_transfer_loop (env : Nat → Nat → Int) :
    Nat → Nat → Nat → Int → Nat → Option (Int × Nat)
  | _, _, _, _, 0 => none
  | i, t, len, off, fuel + 1 =>
    if len = 0 then some (0, t)
    else
      let nbytes := env i len
      if nbytes < 0 then some (EIO_ERR, t)
      else local_file_transfer_loop env (i + 1) (t + nbytes.toNat) (len - nbytes.toNat)
        (off + nbytes) fuel

/-- `local_file_read` (local_store.c:1126-1150). -/
def local_file_read (env : Nat → Nat → Int) (len : Nat) (off : Int) (fuel : Nat) :
    Option (Int × Nat) :=
  local_file_transfer_loop env 0 0 len off fuel

/-- `local_file_write` (local_store.c:1198-1222); its loop is
structurally identical to the read loop. -/
def local_file_write (env : Nat → Nat → Int) (len : Nat) (off : Int) (fuel : Nat) :
    Option (Int × Nat) :=
  local_file_transfer_loop env 0 0 len off fuel

theorem transfer_loop_ok (env : Nat → Nat → Int) (hb : ∀ k l, (env k l).toNat ≤ l) :
    ∀ (fuel len i t : Nat) (off ret : Int) (tr : Nat),
      local_file_transfer_loop env i t len off fuel = some (ret, tr) →
      (ret = 0 → tr = t + len) ∧ (ret ≠ 0 → ret = EIO_ERR) := by
  intro fuel
  induction fuel with
  | zero =>
    intro len i t off ret tr h
    simp [local_file_transfer_loop] at h
  | succ fuel ih =>
    intro len i t off ret tr h
    by_cases h0 : len = 0
    · subst h0
      simp [local_file_transfer_loop] at h
      obtain ⟨rfl, rfl⟩ := h
      exact ⟨fun _ => by omega, fun hr => absurd rfl hr⟩
    · by_cases hneg : env i len < 0
      · simp [local_file_transfer_loop, h0, hneg] at h
        obtain ⟨rfl, rfl⟩ := h
        refine ⟨fun hr => ?_, fun _ => rfl⟩
        norm_num [EIO_ERR] at hr
      · simp only [local_file_transfer_loop, h0, hneg, if_neg, if_false,
          not_false_eq_true] at h
        have hrec := ih (len - (env i len).toNat) (i + 1) (t + (env i len).toNat)
          (off + env i len) ret tr h
        refine ⟨fun hr => ?_, hrec.2⟩
        have h1 := hrec.1 hr
        have hble := hb i len
        omega

theorem transfer_loop_terminates (env : Nat → Nat → Int)
    (hb : ∀ k l, (env k l).toNat ≤ l) (hp : ∀ k l, 0 < l → env k l ≠ 0) :
    ∀ (fuel len : Nat), len < fuel → ∀ (i t : Nat) (off : Int),
      ∃ r, local_file_transfer_loop env i t len off fuel = some r := by
  intro fuel
  induction fuel with
  | zero => intro len h; exact absurd h (Nat.not_lt_zero _)
  | succ fuel ih =>
    intro len hlen i t off
    by_cases h0 : len = 0
    · subst h0
      exact ⟨(0, t), by simp [local_file_transfer_loop]⟩
    · by_cases hneg : env i len < 0
      · exact ⟨(EIO_ERR, t), by simp [local_file_transfer_loop, h0, hneg]⟩
      · have hne := hp i len (Nat.pos_of_ne_zero h0)
        have hpos : 0 < (env i len).toNat := by omega
        have hble := hb i len
        have hdec : len - (env i len).toNat < fuel := by omega
        obtain ⟨r, hr⟩ := ih (len - (env i len).toNat) hdec (i + 1)
          (t + (env i len).toNat) (off + env i len)
        exact ⟨r, by simp [local_file_transfer_loop, h0, hneg, hr]⟩

/-- An environment in which every transfer call returns 0, as `pread`
does for any request at or past end-of-file. -/
def zeroTransferEnv : Nat → Nat → Int := fun _ _ => 0

/-- The read loop never finishes, whatever number of iterations is
observed. -/
def readLoopDiverges (env : Nat → Nat → Int) (len : Nat) (off : Int) : Prop :=
  ∀ fuel, local_file_read env len off fuel = none

theorem zero_env_loop_none :
    ∀ (fuel i t : Nat) (off : Int),
      local_file_transfer_loop zeroTransferEnv i t 4 off fuel = none := by
  intro fuel
  induction fuel with
  | zero => intro i t off; rfl
  | succ fuel ih =>
    intro i t off
    simp only [local_file_transfer_loop, zeroTransferEnv]
    norm_num
    simpa using ih (i + 1) t off

/-- C8 counterexample: reading 4 bytes at an offset at or past
end-of-file makes every `pread` return 0; the retry loop then never
terminates (it makes no progress and never reports an error), refuting
the claim that the operation terminates for every input. -/
theorem C8_counterexample :
    readLoopDiverges zeroTransferEnv 4 0 ∧ zeroTransferEnv 0 4 = 0 :=
  ⟨fun fuel => zero_env_loop_none fuel 0 0 0, rfl⟩

/-- C8 amended: under the POSIX bound that a transfer call moves at most
the requested length, and the progress assumption that every call on a
nonzero request either transfers at least one byte or reports an error
(which rules out the end-of-file zero return), both loops terminate
within `len + 1` iterations; whenever either loop finishes, it reports
success only if exactly `len` bytes were transferred, and otherwise
returns the I/O failure. -/
theorem C8_amended (env : Nat → Nat → Int) (len : Nat) (off : Int)
    (hb : ∀ k l, (env k l).toNat ≤ l)
    (hp : ∀ k l, 0 < l → env k l ≠ 0) :
    (∃ r, local_file_read env len off (len + 1) = some r) ∧
    (∃ r, local_file_write env len off (len + 1) = some r) ∧
    (∀ fuel ret tr, local_file_read env len off fuel = some (ret, tr) →
      (ret = 0 → tr = len) ∧ (ret ≠ 0 → ret = EIO_ERR)) ∧
    (∀ fuel ret tr, local_file_write env len off fuel = some (ret, tr) →
      (ret = 0 → tr = len) ∧ (ret ≠ 0 → ret = EIO_ERR)) := by
  have hterm := transfer_loop_terminates env hb hp (len + 1) len (by omega) 0 0 off
  have hok : ∀ fuel ret tr,
      local_file_transfer_loop env 0 0 len off fuel = some (ret, tr) →
      (ret = 0 → tr = len) ∧ (ret ≠ 0 → ret = EIO_ERR) := by
    intro fuel ret tr h
    have hthis := transfer_loop_ok env hb fuel len 0 0 off ret tr h
    exact ⟨fun hr => by have := hthis.1 hr; omega, hthis.2⟩
  exact ⟨hterm, hterm, hok, hok⟩

/-- An environment in which every call transfers the whole request. -/
def fullTransferEnv : Nat → Nat → Int := fun _ l => Int.ofNat l

theorem C8_witness : local_file_read fullTransferEnv 3 0 4 ≠ none := by
  have h := (C8_amended fullTransferEnv 3 0
    (fun k l => by simp [fullTransferEnv])
    (fun k l hl => by simp [fullTransferEnv]; omega)).1
  obtain ⟨r, hr⟩ := h
  simp [hr]
